import Mathlib

/-!
Verification of the firmware upload/staging system:
the OTA upload server (`tools/ota_server/ota-upload/server.py`) and the
PlatformIO upload client (`tools/upload_scripts/deploy_ota.py`).

Byte strings are modelled as `List Nat` (one entry per byte); text strings
as Lean `String` / `List Char`.  Each definition is a direct shallow
embedding of the corresponding Python function, keeping the source's
control flow and primitive semantics (`bytes.split`, `bytes.rstrip`,
`bytes.find`, the `in` operator, `str.strip().lower()`, re.search of the
version pattern, `json.dumps(..., indent=2)`, and the retry loop).
-/

set_option maxRecDepth 100000

namespace Ota

/-! ## Python byte/string primitives -/

/-- Python `sub in s` (substring containment) for lists. -/
def containsSeq {α : Type} [DecidableEq α] (needle : List α) : List α → Bool
  | [] => needle.isPrefixOf ([] : List α)
  | a :: t => needle.isPrefixOf (a :: t) || containsSeq needle t

/-- Python `bytes.split(sep)` for a non-empty separator, via fuel
(the fuel is always sufficient: every step consumes at least one element). -/
def splitSeqAux {α : Type} [DecidableEq α] (sep : List α) : Nat → List α → List α → List (List α)
  | 0, acc, l => [acc.reverse ++ l]
  | _ + 1, acc, [] => [acc.reverse]
  | fuel + 1, acc, a :: t =>
    if sep.isPrefixOf (a :: t) then
      acc.reverse :: splitSeqAux sep fuel [] ((a :: t).drop sep.length)
    else
      splitSeqAux sep fuel (a :: acc) t

/-- Python `bytes.split(sep)` (separator assumed non-empty, as in the server
where the separator is `b"--" + boundary`). -/
def splitSeq {α : Type} [DecidableEq α] (sep l : List α) : List (List α) :=
  splitSeqAux sep (l.length + 1) [] l

/-- Python `bytes.rstrip(set)`: remove all trailing elements that belong to
`set` (the argument is a set of byte values, not a suffix). -/
def rstripSet {α : Type} [DecidableEq α] (set l : List α) : List α :=
  (l.reverse.dropWhile (fun b => set.contains b)).reverse

/-- Python `bytes.find(sub)`: index of the first occurrence, or `-1`. -/
def findSeqAux {α : Type} [DecidableEq α] (needle : List α) : List α → Nat → Int
  | l, i =>
    if needle.isPrefixOf l then (i : Int)
    else match l with
      | [] => -1
      | _ :: t => findSeqAux needle t (i + 1)

/-- Python `bytes.find(sub)`. -/
def findSeq {α : Type} [DecidableEq α] (needle l : List α) : Int :=
  findSeqAux needle l 0

/-- Bytes of an ASCII string literal. -/
def strBytes (s : String) : List Nat :=
  s.toList.map Char.toNat

/-! ## UTF-8 decoding (Python `bytes.decode()`)

The server decodes the `version` and `board` payloads with `bytes.decode()`,
which raises `UnicodeDecodeError` on invalid UTF-8.  This is a strict
RFC-3629 decoder: it rejects truncated sequences, stray continuation
bytes, overlong encodings, surrogates and code points above U+10FFFF. -/

/-- Is `b` a UTF-8 continuation byte (`0x80–0xBF`)? -/
def isCont (b : Nat) : Bool := 0x80 ≤ b && b ≤ 0xbf

/-- Strict UTF-8 decoding of a byte list; `none` models `UnicodeDecodeError`. -/
def utf8Decode? : List Nat → Option (List Char)
  | [] => some []
  | b :: t =>
    if b ≤ 0x7f then
      (utf8Decode? t).map (fun cs => Char.ofNat b :: cs)
    else if 0xc2 ≤ b && b ≤ 0xdf then
      match t with
      | b1 :: t1 =>
        if isCont b1 then
          (utf8Decode? t1).map (fun cs => Char.ofNat ((b - 0xc0) * 0x40 + (b1 - 0x80)) :: cs)
        else none
      | _ => none
    else if 0xe0 ≤ b && b ≤ 0xef then
      match t with
      | b1 :: b2 :: t2 =>
        let lo1 : Nat := if b = 0xe0 then 0xa0 else 0x80
        let hi1 : Nat := if b = 0xed then 0x9f else 0xbf
        if (lo1 ≤ b1 && b1 ≤ hi1) && isCont b2 then
          (utf8Decode? t2).map (fun cs =>
            Char.ofNat ((b - 0xe0) * 0x1000 + (b1 - 0x80) * 0x40 + (b2 - 0x80)) :: cs)
        else none
      | _ => none
    else if 0xf0 ≤ b && b ≤ 0xf4 then
      match t with
      | b1 :: b2 :: b3 :: t3 =>
        let lo1 : Nat := if b = 0xf0 then 0x90 else 0x80
        let hi1 : Nat := if b = 0xf4 then 0x8f else 0xbf
        if ((lo1 ≤ b1 && b1 ≤ hi1) && isCont b2) && isCont b3 then
          (utf8Decode? t3).map (fun cs =>
            Char.ofNat ((b - 0xf0) * 0x40000 + (b1 - 0x80) * 0x1000 +
              (b2 - 0x80) * 0x40 + (b3 - 0x80)) :: cs)
        else none
      | _ => none
    else none

/-! ## JSON values

The server's responses and both manifest files are JSON.  `json.dumps` of
the data appearing in this program only produces objects whose values are
strings and (non-negative) integers. -/

inductive Json where
  | str (s : String)
  | num (n : Nat)
  | obj (members : List (String × Json))

/-! ## Upload server: `Handler.do_POST` (`server.py`) -/

/-- The multipart fields accumulated by the part-scanning loop of
`do_POST` (`firmware_data = None`, `form_data = {}` initially). -/
structure FormData where
  firmware_data : Option (List Nat)
  version : Option String
  board : Option String
deriving DecidableEq, Repr

/-- `b'name="firmware"'` -/
def nameFirmwareTag : List Nat := strBytes "name=\"firmware\""

/-- `b'name="version"'` -/
def nameVersionTag : List Nat := strBytes "name=\"version\""

/-- `b'name="board"'` -/
def nameBoardTag : List Nat := strBytes "name=\"board\""

/-- `b"\r\n\r\n"` -/
def crlfCrlf : List Nat := [13, 10, 13, 10]

/-- The byte set of `rstrip(b"\r\n--")`: CR, LF and `-`. -/
def rstripBytes : List Nat := [13, 10, 45]

/-- `part[idx+4:].rstrip(b"\r\n--")` guarded by `idx > 0`, where
`idx = part.find(b"\r\n\r\n")` — the payload extraction used for every
field of the multipart body in `do_POST`. -/
def extractPayload (part : List Nat) : Option (List Nat) :=
  let idx := findSeq crlfCrlf part
  if 0 < idx then some (rstripSet rstripBytes (part.drop (idx.toNat + 4)))
  else none

/-- One iteration of the `for part in parts` loop of `do_POST`.  Text
fields are decoded with `bytes.decode()`; a decode failure is the
`UnicodeDecodeError` that the surrounding `try` turns into a 500. -/
def scanPart (fd : FormData) (part : List Nat) : Except Unit FormData :=
  if containsSeq nameFirmwareTag part then
    match extractPayload part with
    | some d => .ok { fd with firmware_data := some d }
    | none => .ok fd
  else
    let step : FormData → List Nat → Option String → Except Unit (Option String) :=
      fun _ tag old =>
        if containsSeq tag part then
          match extractPayload part with
          | some raw =>
            match utf8Decode? raw with
            | some cs => .ok (some (String.mk cs))
            | none => .error ()
          | none => .ok old
        else .ok old
    match step fd nameVersionTag fd.version with
    | .error e => .error e
    | .ok v =>
      match step fd nameBoardTag fd.board with
      | .error e => .error e
      | .ok b => .ok { fd with version := v, board := b }

/-- The whole `for part in parts` loop. -/
def scanParts : List (List Nat) → FormData → Except Unit FormData
  | [], fd => .ok fd
  | p :: ps, fd =>
    match scanPart fd p with
    | .error e => .error e
    | .ok fd2 => scanParts ps fd2

/-- The manifest dictionary the server writes to `manifest.json`. -/
structure SManifest where
  version : String
  file : String
  md5 : String
  size : Nat
  board : String
  timestamp : String
deriving DecidableEq, Repr

/-- The staging directory: `FIRMWARE_DIR/firmware.bin` and
`FIRMWARE_DIR/manifest.json` (`none` = file not yet written). -/
structure ServerState where
  firmwareFile : Option (List Nat)
  manifestFile : Option SManifest
deriving DecidableEq, Repr

/-- `POST /upload` (`Handler.do_POST`, the `self.path == "/upload"` branch).

Inputs: `md5Fn` stands for `hashlib.md5(...).hexdigest()`, `now` for
`datetime.utcnow().isoformat() + "Z"`, `boundary` for the boundary
already extracted from the `Content-Type` header, `body` for the bytes
read from `rfile`, and `st` for the staging directory contents.

Output: the `(status code, JSON body)` response and the new directory
contents. -/
def do_POST (md5Fn : List Nat → String) (now : String)
    (boundary body : List Nat) (st : ServerState) :
    (Nat × Json) × ServerState :=
  let parts := splitSeq (strBytes "--" ++ boundary) body
  match scanParts parts ⟨none, none, none⟩ with
  | .error _ =>
    -- `except Exception as e: self._json(500, {"error": str(e)})`;
    -- the Python message is the UnicodeDecodeError text.
    ((500, .obj [("error", .str "unicode decode error")]), st)
  | .ok fd =>
    match fd.firmware_data with
    | none => ((400, .obj [("error", .str "no firmware")]), st)
    | some d =>
      if d = [] then ((400, .obj [("error", .str "no firmware")]), st)
      else
        let md5 := md5Fn d
        let manifest : SManifest :=
          { version := fd.version.getD "0.0.0"
            file := "firmware.bin"
            md5 := md5
            size := d.length
            board := fd.board.getD "unknown"
            timestamp := now }
        ((200, .obj [("status", .str "ok"), ("md5", .str md5), ("size", .num d.length)]),
          { firmwareFile := some d, manifestFile := some manifest })

/-! ## Upload client: `post_firmware_to_server` (`deploy_ota.py`)

The network is abstracted by the outcome of each POST attempt: the
`requests.post` call either raises `requests.exceptions.Timeout`, raises
`requests.exceptions.ConnectionError`, raises some other exception, or
returns a response with some status code.  The socket probe and the
health GET only log; their outcomes do not influence control flow. -/

/-- Outcome of one `requests.post(server_url, ...)` call. -/
inductive Outcome where
  | timeout
  | connError
  | otherExc
  | status (code : Nat)
deriving DecidableEq, Repr

/-- Observable events of `post_firmware_to_server`: the socket probe, the
health GET, the start of POST attempt `n` (which performs the POST), and
the `time.sleep(2)` before a connection-error retry. -/
inductive Ev where
  | sockProbe
  | healthGet
  | att (n : Nat)
  | sleepEv
deriving DecidableEq, Repr

/-- `max_retries = 3` (`deploy_ota.py` line 75). -/
def max_retries : Nat := 3

/-- The `for attempt in range(1, max_retries + 1)` loop of
`post_firmware_to_server`.  `rem` is the number of iterations the range
still holds (fuel), `attempt` the Python loop variable, `outs` the
outcome of the POST made on each attempt.  Returns the function's return
value and the list of events, in order.

- status in (200, 201): `return True`;
- other status: retry if `attempt < max_retries`, else `return False`;
- `Timeout`: retry (the `attempt < max_retries` test only guards a log
  line; when it fails the loop simply ends and falls through to the
  final `return False`);
- `ConnectionError`: `time.sleep(2)` then retry if `attempt < max_retries`,
  else the loop ends and falls through to `return False`;
- any other exception: `return False` immediately. -/
def retryLoop (outs : Nat → Outcome) : Nat → Nat → Bool × List Ev
  | 0, _ => (false, [])
  | rem + 1, attempt =>
    match outs attempt with
    | .status c =>
      if c = 200 ∨ c = 201 then (true, [.att attempt])
      else if attempt < max_retries then
        let r := retryLoop outs rem (attempt + 1)
        (r.1, .att attempt :: r.2)
      else (false, [.att attempt])
    | .timeout =>
      let r := retryLoop outs rem (attempt + 1)
      (r.1, .att attempt :: r.2)
    | .connError =>
      if attempt < max_retries then
        let r := retryLoop outs rem (attempt + 1)
        (r.1, .att attempt :: .sleepEv :: r.2)
      else
        let r := retryLoop outs rem (attempt + 1)
        (r.1, .att attempt :: r.2)
    | .otherExc => (false, [.att attempt])

/-- `post_firmware_to_server` (given `HAS_REQUESTS`): socket probe and
health GET (outcomes only logged), then the retry loop. -/
def post_firmware_to_server (hasRequests : Bool) (outs : Nat → Outcome) :
    Bool × List Ev :=
  if hasRequests then
    let r := retryLoop outs max_retries 1
    (r.1, .sockProbe :: .healthGet :: r.2)
  else (false, [])

/-! ## Upload client: configuration resolution and `deploy_firmware` -/

/-- Python `str.strip()` whitespace (ASCII part). -/
def pySpace (c : Char) : Bool :=
  c = ' ' || c = '\t' || c = '\n' || c = '\r' || c = '\x0b' || c = '\x0c'

/-- Python `str.strip()`. -/
def pyStrip (s : List Char) : List Char :=
  ((s.dropWhile pySpace).reverse.dropWhile pySpace).reverse

/-- Python `str.lower()` (ASCII part). -/
def pyLowerChar (c : Char) : Char :=
  if 'A' ≤ c && c ≤ 'Z' then Char.ofNat (c.toNat + 32) else c

/-- `os.getenv("FLASH_METHOD", env.GetProjectOption("flash_method", "serial")
or "serial").strip().lower()` (`deploy_ota.py` line 138).  `flashEnv` is the
environment variable (`none` = unset), `projFlash` the project option
(`none` = absent). -/
def resolveFlashMethod (flashEnv projFlash : Option String) : String :=
  let projVal := projFlash.getD "serial"
  let projVal := if projVal = "" then "serial" else projVal
  String.mk ((pyStrip (flashEnv.getD projVal).toList).map pyLowerChar)

/-- `env.GetProjectOption("ota_server_url", "") or os.getenv("OTA_SERVER_URL",
"")` (`deploy_ota.py` line 171): Python `or` yields the first operand when
it is truthy (non-empty). -/
def resolveServerUrl (projUrl envUrl : String) : String :=
  if projUrl ≠ "" then projUrl else envUrl

/-! ## Upload client: `get_firmware_version`

`re.search(r'FIRMWARE_VERSION[=\\"]+"?([0-9.]+)', str(flag))`, embedded
with Python's leftmost-match, greedy-with-backtracking semantics. -/

/-- The character class `[=\\"]`. -/
def sepChar (c : Char) : Bool := c = '=' || c = '\\' || c = '\"'

/-- The character class `[0-9.]`. -/
def versChar (c : Char) : Bool := c.isDigit || c = '.'

/-- Match `([0-9.]+)` at the head (the capture group), greedily. -/
def digitsPlus (cs : List Char) : Option (List Char) :=
  let run := cs.takeWhile versChar
  if run = [] then none else some run

/-- Match `"?([0-9.]+)` at the head: the greedy `"?` first tries to
consume a quote, backtracking to the empty match. -/
def quoteDigits (cs : List Char) : Option (List Char) :=
  match cs with
  | '\"' :: rest =>
    match digitsPlus rest with
    | some v => some v
    | none => digitsPlus cs
  | _ => digitsPlus cs

/-- Match the rest of the pattern after at least one `[=\\"]` character
has been consumed: greedily extend the `[=\\"]+` run, backtracking to
`"?([0-9.]+)` at each position. -/
def sepPlusLoop : List Char → Option (List Char)
  | [] => quoteDigits []
  | c :: rest =>
    if sepChar c then
      match sepPlusLoop rest with
      | some v => some v
      | none => quoteDigits (c :: rest)
    else quoteDigits (c :: rest)

/-- Match `[=\\"]+"?([0-9.]+)` at the head. -/
def matchTail : List Char → Option (List Char)
  | [] => none
  | c :: rest => if sepChar c then sepPlusLoop rest else none

/-- The literal `FIRMWARE_VERSION`. -/
def litFV : List Char := "FIRMWARE_VERSION".toList

/-- `re.search` of the whole pattern: try the pattern at each position,
left to right; the first position where it matches wins. -/
def reSearchFV : List Char → Option (List Char)
  | [] => none
  | c :: rest =>
    if litFV.isPrefixOf (c :: rest) then
      match matchTail ((c :: rest).drop litFV.length) with
      | some v => some v
      | none => reSearchFV rest
    else reSearchFV rest

/-- The `for flag in env.get("BUILD_FLAGS", [])` loop of
`get_firmware_version`: the substring test guards the regex search; a
flag that contains the literal but does not match the pattern is skipped
(`if match:` fails and the loop continues). -/
def searchFlagsLoop : List String → String
  | [] => "0.0.0"
  | f :: rest =>
    if containsSeq litFV f.toList then
      match reSearchFV f.toList with
      | some v => String.mk v
      | none => searchFlagsLoop rest
    else searchFlagsLoop rest

/-- `get_firmware_version(env)`: `custom` is
`env.GetProjectOption("custom_firmware_version", None)`; `if version:`
is Python truthiness (`None` and `""` are falsy). -/
def get_firmware_version (custom : Option String) (flags : List String) : String :=
  match custom with
  | some v => if v = "" then searchFlagsLoop flags else v
  | none => searchFlagsLoop flags

/-! ## Upload client: `deploy_firmware` -/

/-- Observable effects of `deploy_firmware`: the early-return log when the
built binary is missing, the staging-directory creation, the local copy of
`firmware.bin`, the local `manifest.json` write, the "no ota_server_url"
log, and the network events of `post_firmware_to_server` tagged with the
URL they are sent to. -/
inductive Fx where
  | logNotFound
  | mkdirFx
  | copyFirmwareFx
  | writeManifestFx
  | logNoUrl
  | net (url : String) (e : Ev)
deriving DecidableEq, Repr

/-- `deploy_firmware(source, target, env)`.

`fwExists` models `firmware_path.exists()`; `flashEnv`/`projFlash` the
`FLASH_METHOD` inputs; `projUrl`/`envUrl` the `ota_server_url` inputs
(`""` = unset, matching the code's defaults); `hasRequests`/`outs` the
inputs of `post_firmware_to_server`.  Returns the ordered effect list. -/
def deploy_firmware (fwExists : Bool) (flashEnv projFlash : Option String)
    (projUrl envUrl : String) (hasRequests : Bool) (outs : Nat → Outcome) :
    List Fx :=
  if ¬fwExists then [.logNotFound]
  else
    let flash_method := resolveFlashMethod flashEnv projFlash
    [Fx.mkdirFx, Fx.copyFirmwareFx, Fx.writeManifestFx] ++
      (if flash_method = "ota" then
        let server_url := resolveServerUrl projUrl envUrl
        if server_url ≠ "" then
          (post_firmware_to_server hasRequests outs).2.map (Fx.net server_url)
        else [.logNoUrl]
      else [])

/-! ## `json.dumps(manifest, indent=2)` and JSON parsing

`deploy_firmware` serializes its manifest with `json.dumps(manifest,
indent=2)` (default `ensure_ascii=True`).  The parse direction is
modelled from the spec: standard JSON parsing (`json.loads`), restricted
to the shapes the manifest can contain (objects whose values are strings
and non-negative integers). -/

/-- `{` (written via its code point to keep it out of literals). -/
def lbraceC : Char := Char.ofNat 123

/-- `}` -/
def rbraceC : Char := Char.ofNat 125

/-- Lowercase hex digit, as produced by `%04x`. -/
def hexDig (d : Nat) : Char :=
  if d < 10 then Char.ofNat (48 + d) else Char.ofNat (87 + d)

/-- The four hex digits of `\uXXXX`. -/
def hex4 (v : Nat) : List Char :=
  [hexDig (v / 4096 % 16), hexDig (v / 256 % 16), hexDig (v / 16 % 16), hexDig (v % 16)]

/-- One character of `json.dumps`'s ASCII string escaping:
`"` and `\` get a backslash escape, the five control characters
`\b \f \n \r \t` their short forms, printable ASCII is emitted verbatim,
everything else becomes `\uXXXX` (a surrogate pair above `U+FFFF`). -/
def escapeChar (c : Char) : List Char :=
  if c = '\"' then ['\\', '\"']
  else if c = '\\' then ['\\', '\\']
  else if c = Char.ofNat 8 then ['\\', 'b']
  else if c = Char.ofNat 12 then ['\\', 'f']
  else if c = '\n' then ['\\', 'n']
  else if c = '\r' then ['\\', 'r']
  else if c = '\t' then ['\\', 't']
  else if 0x20 ≤ c.toNat ∧ c.toNat ≤ 0x7e then [c]
  else if c.toNat < 0x10000 then '\\' :: 'u' :: hex4 c.toNat
  else
    let u := c.toNat - 0x10000
    ('\\' :: 'u' :: hex4 (0xd800 + u / 0x400)) ++ ('\\' :: 'u' :: hex4 (0xdc00 + u % 0x400))

/-- Escape a whole string. -/
def escapeList : List Char → List Char
  | [] => []
  | c :: t => escapeChar c ++ escapeList t

/-- Decimal digits of `n`, most significant first (how `json.dumps`
renders a non-negative `int`). -/
def natDigits (n : Nat) : List Char :=
  if n < 10 then [hexDig n]
  else natDigits (n / 10) ++ [hexDig (n % 10)]
termination_by n
decreasing_by simp_wf; omega

/-- The manifest dictionary built by `deploy_firmware` (lines 157–164),
fields in the dictionary's insertion order. -/
structure CManifest where
  version : String
  file : String
  md5 : String
  size : Nat
  board : String
  timestamp : String
deriving DecidableEq, Repr

/-- `"  \"<key>\": "` — indent, quoted (escaped) key, key separator. -/
def keyPre (k : String) : List Char :=
  [' ', ' ', '\"'] ++ escapeList k.toList ++ ['\"', ':', ' ']

/-- A JSON string literal. -/
def strLit (s : String) : List Char :=
  '\"' :: (escapeList s.toList ++ ['\"'])

/-- Item separator of `json.dumps(..., indent=2)`: `,` then newline. -/
def commaNl : List Char := [',', '\n']

/-- `json.dumps(manifest, indent=2)` for the client manifest. -/
def dumpsManifest (m : CManifest) : List Char :=
  [lbraceC, '\n'] ++
  keyPre "version" ++ strLit m.version ++ commaNl ++
  keyPre "file" ++ strLit m.file ++ commaNl ++
  keyPre "md5" ++ strLit m.md5 ++ commaNl ++
  keyPre "size" ++ natDigits m.size ++ commaNl ++
  keyPre "board" ++ strLit m.board ++ commaNl ++
  keyPre "timestamp" ++ strLit m.timestamp ++
  ['\n', rbraceC]

/-! ### The JSON parser (modelled from the spec: `json.loads`) -/

/-- JSON insignificant whitespace. -/
def jsonWs (c : Char) : Bool :=
  c = ' ' || c = '\t' || c = '\n' || c = '\r'

/-- Skip insignificant whitespace. -/
def skipWs (cs : List Char) : List Char :=
  cs.dropWhile jsonWs

/-- Value of one hex digit (JSON accepts both cases). -/
def hexVal? (c : Char) : Option Nat :=
  if c.isDigit then some (c.toNat - 48)
  else if 'a' ≤ c && c ≤ 'f' then some (c.toNat - 87)
  else if 'A' ≤ c && c ≤ 'F' then some (c.toNat - 55)
  else none

/-- Value of `\uXXXX`'s four hex digits. -/
def hex4Val? (a b c d : Char) : Option Nat :=
  match hexVal? a, hexVal? b, hexVal? c, hexVal? d with
  | some va, some vb, some vc, some vd => some (va * 4096 + vb * 256 + vc * 16 + vd)
  | _, _, _, _ => none

/-- The single-character escapes of JSON. -/
def escSimple? (e : Char) : Option Char :=
  if e = '\"' then some '\"'
  else if e = '\\' then some '\\'
  else if e = '/' then some '/'
  else if e = 'b' then some (Char.ofNat 8)
  else if e = 'f' then some (Char.ofNat 12)
  else if e = 'n' then some '\n'
  else if e = 'r' then some '\r'
  else if e = 't' then some '\t'
  else none

/-- Decode the low half of a `\uXXXX\uXXXX` surrogate pair: `v` is the
high surrogate already decoded, `w?` the candidate low value. -/
def uPairCont (v : Nat) (w? : Option Nat) (rest4 : List Char) : Option (Char × List Char) :=
  match w? with
  | some w =>
    if 0xdc00 ≤ w ∧ w ≤ 0xdfff then
      some (Char.ofNat (0x10000 + (v - 0xd800) * 0x400 + (w - 0xdc00)), rest4)
    else none
  | none => none

/-- After a high surrogate, the input must continue with a low `\uXXXX`. -/
def uSurrogateTail : Nat → List Char → Option (Char × List Char)
  | v, '\\' :: 'u' :: a2 :: b2 :: c3 :: d2 :: rest4 =>
    uPairCont v (hex4Val? a2 b2 c3 d2) rest4
  | _, _ => none

/-- Decode one `\uXXXX` escape given its hex value: a high surrogate
requires a following low surrogate (the pair decodes to one code point);
a lone surrogate is rejected, which is sound for round-trip purposes
because the serializer never emits one. -/
def uEscapeCont (w? : Option Nat) (rest3 : List Char) : Option (Char × List Char) :=
  match w? with
  | none => none
  | some v =>
    if 0xd800 ≤ v ∧ v ≤ 0xdbff then uSurrogateTail v rest3
    else if 0xdc00 ≤ v ∧ v ≤ 0xdfff then none
    else some (Char.ofNat v, rest3)

/-- Lift a single-character escape decode. -/
def escCont (e? : Option Char) (rest2 : List Char) : Option (Char × List Char) :=
  match e? with
  | some ec => some (ec, rest2)
  | none => none

/-- Decode the escape that follows a backslash: the decoded character and
the remaining input. -/
def unescapeHead : List Char → Option (Char × List Char)
  | 'u' :: a :: b :: c2 :: d :: rest3 => uEscapeCont (hex4Val? a b c2 d) rest3
  | e :: rest2 => escCont (escSimple? e) rest2
  | [] => none

/-- Parse the body of a JSON string after its opening quote, with fuel
(one unit per decoded character; the fuel `input length + 1` used by
`parseStr` is always sufficient since every character consumes at least
one input element).  Returns the decoded characters and the input after
the closing quote. -/
def parseStrF : Nat → List Char → Option (List Char × List Char)
  | 0, _ => none
  | fuel + 1, cs =>
    match cs with
    | [] => none
    | c :: rest =>
      if c = '\"' then some ([], rest)
      else if c = '\\' then
        match unescapeHead rest with
        | some er =>
          match parseStrF fuel er.2 with
          | some (s, r) => some (er.1 :: s, r)
          | none => none
        | none => none
      else
        match parseStrF fuel rest with
        | some (s, r) => some (c :: s, r)
        | none => none

/-- Parse a JSON string body (fuel instantiated sufficiently). -/
def parseStr (cs : List Char) : Option (List Char × List Char) :=
  parseStrF (cs.length + 1) cs

/-- Accumulate a run of decimal digits. -/
def parseNumAux (acc : Nat) : List Char → Nat × List Char
  | [] => (acc, [])
  | c :: rest =>
    if c.isDigit then parseNumAux (10 * acc + (c.toNat - 48)) rest
    else (acc, c :: rest)

/-- Parse a non-negative JSON integer (at least one digit). -/
def parseNum : List Char → Option (Nat × List Char)
  | [] => none
  | c :: rest =>
    if c.isDigit then some (parseNumAux 0 (c :: rest)) else none

/-- Parse a JSON value (string or non-negative integer — the only value
shapes the manifest contains). -/
def parseVal (cs : List Char) : Option (Json × List Char) :=
  match skipWs cs with
  | [] => none
  | c :: rest =>
    if c = '\"' then
      match parseStr rest with
      | some (s, r) => some (Json.str (String.mk s), r)
      | none => none
    else if c.isDigit then
      match parseNum (c :: rest) with
      | some (n, r) => some (Json.num n, r)
      | none => none
    else none

/-- Parse the members of a JSON object after its opening brace (at least
one member).  The fuel bounds the number of members; every member
consumes at least one character, so `input length + 1` is always
sufficient. -/
def parseMembersF : Nat → List Char → Option (List (String × Json) × List Char)
  | 0, _ => none
  | fuel + 1, cs =>
    match skipWs cs with
    | [] => none
    | c :: r =>
      if c = '\"' then
        match parseStr r with
        | none => none
        | some (k, r2) =>
          match skipWs r2 with
          | [] => none
          | c2 :: r3 =>
            if c2 = ':' then
              match parseVal r3 with
              | none => none
              | some (v, r4) =>
                match skipWs r4 with
                | [] => none
                | c3 :: r5 =>
                  if c3 = ',' then
                    match parseMembersF fuel r5 with
                    | some (ms, r6) => some ((String.mk k, v) :: ms, r6)
                    | none => none
                  else if c3 = rbraceC then some ([(String.mk k, v)], r5)
                  else none
            else none
      else none

/-- Parse a whole JSON object document (`json.loads` restricted to an
object of strings/integers), requiring only whitespace after it. -/
def parseObj (cs : List Char) : Option (List (String × Json)) :=
  match skipWs cs with
  | [] => none
  | c :: r =>
    if c = lbraceC then
      match skipWs r with
      | [] => none
      | c2 :: r2 =>
        if c2 = rbraceC then (if skipWs r2 = [] then some [] else none)
        else
          match parseMembersF (cs.length + 1) r with
          | some (ms, rest) => if skipWs rest = [] then some ms else none
          | none => none
    else none

/-! ## Ancillary definitions used by the claim statements -/

/-- An attempt outcome that does not end the loop successfully: a
timeout, a connection error, or a response whose status is neither 200
nor 201. -/
def attemptFails (o : Outcome) : Prop :=
  o = .timeout ∨ o = .connError ∨ ∃ c, o = .status c ∧ c ≠ 200 ∧ c ≠ 201

/-- Every network effect in the list targets `url`. -/
def netTargets (url : String) (fx : Fx) : Bool :=
  match fx with
  | .net u _ => u == url
  | _ => true

/-- Following the claim's wording for `get_firmware_version`: the value
captured by the `FIRMWARE_VERSION` pattern in one flag, if any. -/
def flagVersionMatch? (f : String) : Option String :=
  (reSearchFV f.toList).map String.mk

/-- Following the claim's wording for `get_firmware_version`: the custom
project option when set (non-empty), else the first flag's captured
digits-and-dots value, else `"0.0.0"`. -/
def get_firmware_version_claim (custom : Option String) (flags : List String) : String :=
  match custom with
  | some v => if v = "" then (flags.findSome? flagVersionMatch?).getD "0.0.0" else v
  | none => (flags.findSome? flagVersionMatch?).getD "0.0.0"

/-- A multipart body (boundary `X`) whose `firmware` part payload is the
four bytes `abc-` — firmware content with a trailing `-` byte. -/
def dashBody : List Nat :=
  strBytes "--X\r\nContent-Disposition: form-data; name=\"firmware\"; filename=\"firmware.bin\"\r\nContent-Type: application/octet-stream\r\n\r\nabc-\r\n--X--\r\n"

/-- The exact firmware bytes the client placed in `dashBody`. -/
def dashFirmware : List Nat := strBytes "abc-"

/-- A multipart body (boundary `X`) with no `firmware` part and a
`version` part whose payload is the single byte `0xff` (not UTF-8). -/
def badVersionBody : List Nat :=
  strBytes "--X\r\nContent-Disposition: form-data; name=\"version\"\r\n\r\n" ++
    [255] ++ strBytes "\r\n--X--\r\n"

/-- A multipart body (boundary `X`) with a `version` part (payload
`1.0`) and no `firmware` part. -/
def noFirmwareBody : List Nat :=
  strBytes "--X\r\nContent-Disposition: form-data; name=\"version\"\r\n\r\n1.0\r\n--X--\r\n"

/-! # Theorems -/

/-! ## Retry-loop lemmas -/

theorem retryLoop_trace_head (outs : Nat → Outcome) (rem attempt : Nat) :
    ∃ t, (retryLoop outs (rem + 1) attempt).2 = .att attempt :: t := by
  cases h : outs attempt <;> simp [retryLoop, h] <;> split_ifs <;> simp

theorem retryLoop_timeout_step (outs : Nat → Outcome) (rem attempt : Nat)
    (h : outs attempt = .timeout) :
    retryLoop outs (rem + 1) attempt =
      ((retryLoop outs rem (attempt + 1)).1,
        .att attempt :: (retryLoop outs rem (attempt + 1)).2) := by
  simp [retryLoop, h]

theorem retryLoop_conn_step (outs : Nat → Outcome) (rem attempt : Nat)
    (h : outs attempt = .connError) (hlt : attempt < max_retries) :
    retryLoop outs (rem + 1) attempt =
      ((retryLoop outs rem (attempt + 1)).1,
        .att attempt :: .sleepEv :: (retryLoop outs rem (attempt + 1)).2) := by
  simp [retryLoop, h, hlt]

theorem retryLoop_conn_last (outs : Nat → Outcome) (rem attempt : Nat)
    (h : outs attempt = .connError) (hge : ¬ attempt < max_retries) :
    retryLoop outs (rem + 1) attempt =
      ((retryLoop outs rem (attempt + 1)).1,
        .att attempt :: (retryLoop outs rem (attempt + 1)).2) := by
  simp [retryLoop, h, hge]

theorem retryLoop_status_ok (outs : Nat → Outcome) (rem attempt c : Nat)
    (h : outs attempt = .status c) (hc : c = 200 ∨ c = 201) :
    retryLoop outs (rem + 1) attempt = (true, [.att attempt]) := by
  simp [retryLoop, h, hc]

theorem retryLoop_status_fail_step (outs : Nat → Outcome) (rem attempt c : Nat)
    (h : outs attempt = .status c) (hc : ¬(c = 200 ∨ c = 201))
    (hlt : attempt < max_retries) :
    retryLoop outs (rem + 1) attempt =
      ((retryLoop outs rem (attempt + 1)).1,
        .att attempt :: (retryLoop outs rem (attempt + 1)).2) := by
  simp [retryLoop, h, hc, hlt]

theorem retryLoop_status_fail_last (outs : Nat → Outcome) (rem attempt c : Nat)
    (h : outs attempt = .status c) (hc : ¬(c = 200 ∨ c = 201))
    (hge : ¬ attempt < max_retries) :
    retryLoop outs (rem + 1) attempt = (false, [.att attempt]) := by
  simp [retryLoop, h, hc, hge]

theorem retryLoop_other_step (outs : Nat → Outcome) (rem attempt : Nat)
    (h : outs attempt = .otherExc) :
    retryLoop outs (rem + 1) attempt = (false, [.att attempt]) := by
  simp [retryLoop, h]

theorem retryLoop_step1 (outs : Nat → Outcome) (h : attemptFails (outs 1)) :
    ∃ pre, retryLoop outs 3 1 =
      ((retryLoop outs 2 2).1, pre ++ (retryLoop outs 2 2).2) := by
  rcases h with h | h | ⟨c, h, hc1, hc2⟩
  · have e : retryLoop outs 3 1 =
        ((retryLoop outs 2 2).1, .att 1 :: (retryLoop outs 2 2).2) :=
      retryLoop_timeout_step outs 2 1 h
    exact ⟨[.att 1], by rw [e]; rfl⟩
  · have e : retryLoop outs 3 1 =
        ((retryLoop outs 2 2).1, .att 1 :: .sleepEv :: (retryLoop outs 2 2).2) :=
      retryLoop_conn_step outs 2 1 h (by decide)
    exact ⟨[.att 1, .sleepEv], by rw [e]; rfl⟩
  · have e : retryLoop outs 3 1 =
        ((retryLoop outs 2 2).1, .att 1 :: (retryLoop outs 2 2).2) :=
      retryLoop_status_fail_step outs 2 1 c h (fun hh => hh.elim hc1 hc2) (by decide)
    exact ⟨[.att 1], by rw [e]; rfl⟩

theorem retryLoop_step2 (outs : Nat → Outcome) (h : attemptFails (outs 2)) :
    ∃ pre, retryLoop outs 2 2 =
      ((retryLoop outs 1 3).1, pre ++ (retryLoop outs 1 3).2) := by
  rcases h with h | h | ⟨c, h, hc1, hc2⟩
  · have e : retryLoop outs 2 2 =
        ((retryLoop outs 1 3).1, .att 2 :: (retryLoop outs 1 3).2) :=
      retryLoop_timeout_step outs 1 2 h
    exact ⟨[.att 2], by rw [e]; rfl⟩
  · have e : retryLoop outs 2 2 =
        ((retryLoop outs 1 3).1, .att 2 :: .sleepEv :: (retryLoop outs 1 3).2) :=
      retryLoop_conn_step outs 1 2 h (by decide)
    exact ⟨[.att 2, .sleepEv], by rw [e]; rfl⟩
  · have e : retryLoop outs 2 2 =
        ((retryLoop outs 1 3).1, .att 2 :: (retryLoop outs 1 3).2) :=
      retryLoop_status_fail_step outs 1 2 c h (fun hh => hh.elim hc1 hc2) (by decide)
    exact ⟨[.att 2], by rw [e]; rfl⟩

theorem retryLoop_last_fails (outs : Nat → Outcome) (h : attemptFails (outs 3)) :
    retryLoop outs 1 3 = (false, [.att 3]) := by
  rcases h with h | h | ⟨c, h, hc1, hc2⟩
  · have e : retryLoop outs 1 3 =
        ((retryLoop outs 0 4).1, .att 3 :: (retryLoop outs 0 4).2) :=
      retryLoop_timeout_step outs 0 3 h
    rw [e]; rfl
  · have e : retryLoop outs 1 3 =
        ((retryLoop outs 0 4).1, .att 3 :: (retryLoop outs 0 4).2) :=
      retryLoop_conn_last outs 0 3 h (by decide)
    rw [e]; rfl
  · exact retryLoop_status_fail_last outs 0 3 c h (fun hh => hh.elim hc1 hc2) (by decide)

/-! ## Claim C2 -/

/-- C2: if attempts 1 and 2 raise a timeout and attempt 3 returns HTTP
200, `post_firmware_to_server` returns success after exactly 3 POST
attempts (the trace holds exactly the events `att 1`, `att 2`, `att 3`);
and whenever all three attempts fail (timeout, connection error or a
non-2xx status), it returns `False` — the loop catches these exceptions,
so nothing propagates (the model is a total function). -/
theorem upload_retry_c2 (outs : Nat → Outcome) :
    (outs 1 = .timeout → outs 2 = .timeout → outs 3 = .status 200 →
      post_firmware_to_server true outs =
        (true, [.sockProbe, .healthGet, .att 1, .att 2, .att 3])) ∧
    ((∀ i, 1 ≤ i → i ≤ 3 → attemptFails (outs i)) →
      (post_firmware_to_server true outs).1 = false) := by
  constructor
  · intro h1 h2 h3
    simp [post_firmware_to_server, retryLoop, h1, h2, h3, max_retries]
  · intro h
    obtain ⟨p1, e1⟩ := retryLoop_step1 outs (h 1 (by omega) (by omega))
    obtain ⟨p2, e2⟩ := retryLoop_step2 outs (h 2 (by omega) (by omega))
    have e3 := retryLoop_last_fails outs (h 3 (by omega) (by omega))
    simp [post_firmware_to_server, max_retries, e1, e2, e3]

/-- Witness for C2 at concrete attempt outcomes. -/
theorem upload_retry_c2_witness :
    post_firmware_to_server true (fun i => if i = 3 then .status 200 else .timeout) =
      (true, [.sockProbe, .healthGet, .att 1, .att 2, .att 3]) ∧
    (post_firmware_to_server true (fun _ => .timeout)).1 = false :=
  ⟨(upload_retry_c2 _).1 rfl rfl rfl,
   (upload_retry_c2 _).2 (fun _ _ _ => Or.inl rfl)⟩

/-! ## Claim C3 -/

/-- C3: in the upload loop, a timeout causes an immediate retry (the
next event after the timed-out attempt is the next attempt, with no
sleep), a connection error causes a retry after a `time.sleep(2)`, each
only while attempts remain (on the final attempt the loop ends with no
further attempt); any other exception makes the function return failure
immediately with no further attempts. -/
theorem upload_retry_c3 (outs : Nat → Outcome) :
    (outs 1 = .timeout → ∃ t, (post_firmware_to_server true outs).2 =
      [.sockProbe, .healthGet, .att 1, .att 2] ++ t) ∧
    (outs 1 = .connError → ∃ t, (post_firmware_to_server true outs).2 =
      [.sockProbe, .healthGet, .att 1, .sleepEv, .att 2] ++ t) ∧
    (attemptFails (outs 1) → outs 2 = .timeout → ∃ pre t,
      (post_firmware_to_server true outs).2 = pre ++ [.att 2, .att 3] ++ t) ∧
    (attemptFails (outs 1) → outs 2 = .connError → ∃ pre t,
      (post_firmware_to_server true outs).2 = pre ++ [.att 2, .sleepEv, .att 3] ++ t) ∧
    (attemptFails (outs 1) → attemptFails (outs 2) →
      outs 3 = .timeout ∨ outs 3 = .connError →
      (post_firmware_to_server true outs).1 = false ∧
      ∃ pre, (post_firmware_to_server true outs).2 = pre ++ [.att 3]) ∧
    (outs 1 = .otherExc →
      post_firmware_to_server true outs = (false, [.sockProbe, .healthGet, .att 1])) ∧
    (attemptFails (outs 1) → outs 2 = .otherExc →
      (post_firmware_to_server true outs).1 = false ∧
      ∃ pre, (post_firmware_to_server true outs).2 = pre ++ [.att 2]) := by
  refine ⟨?_, ?_, ?_, ?_, ?_, ?_, ?_⟩
  · intro h1
    obtain ⟨t, ht⟩ := retryLoop_trace_head outs 1 2
    have ht2 : (retryLoop outs 2 2).2 = .att 2 :: t := ht
    have e1 : retryLoop outs 3 1 =
        ((retryLoop outs 2 2).1, .att 1 :: (retryLoop outs 2 2).2) :=
      retryLoop_timeout_step outs 2 1 h1
    exact ⟨t, by simp [post_firmware_to_server, max_retries, e1, ht2]⟩
  · intro h1
    obtain ⟨t, ht⟩ := retryLoop_trace_head outs 1 2
    have ht2 : (retryLoop outs 2 2).2 = .att 2 :: t := ht
    have e1 : retryLoop outs 3 1 =
        ((retryLoop outs 2 2).1, .att 1 :: .sleepEv :: (retryLoop outs 2 2).2) :=
      retryLoop_conn_step outs 2 1 h1 (by decide)
    exact ⟨t, by simp [post_firmware_to_server, max_retries, e1, ht2]⟩
  · intro hf h2
    obtain ⟨p1, e1⟩ := retryLoop_step1 outs hf
    obtain ⟨t, ht⟩ := retryLoop_trace_head outs 0 3
    have ht3 : (retryLoop outs 1 3).2 = .att 3 :: t := ht
    have e2 : retryLoop outs 2 2 =
        ((retryLoop outs 1 3).1, .att 2 :: (retryLoop outs 1 3).2) :=
      retryLoop_timeout_step outs 1 2 h2
    exact ⟨.sockProbe :: .healthGet :: p1, t,
      by simp [post_firmware_to_server, max_retries, e1, e2, ht3]⟩
  · intro hf h2
    obtain ⟨p1, e1⟩ := retryLoop_step1 outs hf
    obtain ⟨t, ht⟩ := retryLoop_trace_head outs 0 3
    have ht3 : (retryLoop outs 1 3).2 = .att 3 :: t := ht
    have e2 : retryLoop outs 2 2 =
        ((retryLoop outs 1 3).1, .att 2 :: .sleepEv :: (retryLoop outs 1 3).2) :=
      retryLoop_conn_step outs 1 2 h2 (by decide)
    exact ⟨.sockProbe :: .healthGet :: p1, t,
      by simp [post_firmware_to_server, max_retries, e1, e2, ht3]⟩
  · intro hf1 hf2 h3
    obtain ⟨p1, e1⟩ := retryLoop_step1 outs hf1
    obtain ⟨p2, e2⟩ := retryLoop_step2 outs hf2
    have e3 : retryLoop outs 1 3 = (false, [.att 3]) := by
      rcases h3 with h3 | h3
      · have e : retryLoop outs 1 3 =
            ((retryLoop outs 0 4).1, .att 3 :: (retryLoop outs 0 4).2) :=
          retryLoop_timeout_step outs 0 3 h3
        rw [e]; rfl
      · have e : retryLoop outs 1 3 =
            ((retryLoop outs 0 4).1, .att 3 :: (retryLoop outs 0 4).2) :=
          retryLoop_conn_last outs 0 3 h3 (by decide)
        rw [e]; rfl
    refine ⟨by simp [post_firmware_to_server, max_retries, e1, e2, e3],
      .sockProbe :: .healthGet :: (p1 ++ p2), ?_⟩
    simp [post_firmware_to_server, max_retries, e1, e2, e3]
  · intro h1
    have e1 : retryLoop outs 3 1 = (false, [.att 1]) :=
      retryLoop_other_step outs 2 1 h1
    simp [post_firmware_to_server, max_retries, e1]
  · intro hf h2
    obtain ⟨p1, e1⟩ := retryLoop_step1 outs hf
    have e2 : retryLoop outs 2 2 = (false, [.att 2]) :=
      retryLoop_other_step outs 1 2 h2
    exact ⟨by simp [post_firmware_to_server, max_retries, e1, e2],
      .sockProbe :: .healthGet :: p1,
      by simp [post_firmware_to_server, max_retries, e1, e2]⟩

/-- Witness for C3 at concrete attempt outcomes, exercising every case:
timeout retry, connection-error retry with sleep (at attempts 1 and 2),
final-attempt exhaustion, and the fatal other-exception path (at
attempts 1 and 2). -/
theorem upload_retry_c3_witness :
    (∃ t, (post_firmware_to_server true (fun _ => .timeout)).2 =
      [.sockProbe, .healthGet, .att 1, .att 2] ++ t) ∧
    (∃ t, (post_firmware_to_server true
        (fun i => if i = 1 then .connError else .timeout)).2 =
      [.sockProbe, .healthGet, .att 1, .sleepEv, .att 2] ++ t) ∧
    (∃ pre t, (post_firmware_to_server true (fun _ => .timeout)).2 =
      pre ++ [.att 2, .att 3] ++ t) ∧
    (∃ pre t, (post_firmware_to_server true
        (fun i => if i = 2 then .connError else .timeout)).2 =
      pre ++ [.att 2, .sleepEv, .att 3] ++ t) ∧
    ((post_firmware_to_server true (fun _ => .timeout)).1 = false ∧
      ∃ pre, (post_firmware_to_server true (fun _ => .timeout)).2 = pre ++ [.att 3]) ∧
    post_firmware_to_server true (fun _ => .otherExc) =
      (false, [.sockProbe, .healthGet, .att 1]) ∧
    ((post_firmware_to_server true
        (fun i => if i = 1 then .timeout else .otherExc)).1 = false ∧
      ∃ pre, (post_firmware_to_server true
        (fun i => if i = 1 then .timeout else .otherExc)).2 = pre ++ [.att 2]) :=
  ⟨(upload_retry_c3 _).1 rfl,
   (upload_retry_c3 _).2.1 rfl,
   (upload_retry_c3 _).2.2.1 (Or.inl rfl) rfl,
   (upload_retry_c3 _).2.2.2.1 (Or.inl rfl) rfl,
   (upload_retry_c3 _).2.2.2.2.1 (Or.inl rfl) (Or.inl rfl) (Or.inl rfl),
   (upload_retry_c3 _).2.2.2.2.2.1 rfl,
   (upload_retry_c3 _).2.2.2.2.2.2 (Or.inl rfl) rfl⟩

/-! ## Claim C6 -/

/-- C6: an attempt succeeds exactly when the response status is 200 or
201 (shown at attempt 1: a 2xx status returns `True` at once, any other
status is retried — the trace continues with the next attempt); and a
non-2xx status on the last attempt makes the function return failure. -/
theorem upload_status_c6 (outs : Nat → Outcome) (c : Nat) :
    (outs 1 = .status c →
      ((c = 200 ∨ c = 201 → post_firmware_to_server true outs =
          (true, [.sockProbe, .healthGet, .att 1])) ∧
       (¬(c = 200 ∨ c = 201) → ∃ t, (post_firmware_to_server true outs).2 =
          [.sockProbe, .healthGet, .att 1, .att 2] ++ t))) ∧
    (attemptFails (outs 1) → attemptFails (outs 2) → outs 3 = .status c →
      ¬(c = 200 ∨ c = 201) → (post_firmware_to_server true outs).1 = false) := by
  constructor
  · intro h1
    constructor
    · intro hc
      have e1 : retryLoop outs 3 1 = (true, [.att 1]) :=
        retryLoop_status_ok outs 2 1 c h1 hc
      simp [post_firmware_to_server, max_retries, e1]
    · intro hc
      obtain ⟨t, ht⟩ := retryLoop_trace_head outs 1 2
      have ht2 : (retryLoop outs 2 2).2 = .att 2 :: t := ht
      have e1 : retryLoop outs 3 1 =
          ((retryLoop outs 2 2).1, .att 1 :: (retryLoop outs 2 2).2) :=
        retryLoop_status_fail_step outs 2 1 c h1 hc (by decide)
      exact ⟨t, by simp [post_firmware_to_server, max_retries, e1, ht2]⟩
  · intro hf1 hf2 h3 hc
    obtain ⟨p1, e1⟩ := retryLoop_step1 outs hf1
    obtain ⟨p2, e2⟩ := retryLoop_step2 outs hf2
    have e3 : retryLoop outs 1 3 = (false, [.att 3]) :=
      retryLoop_status_fail_last outs 0 3 c h3 hc (by decide)
    simp [post_firmware_to_server, max_retries, e1, e2, e3]

/-- Witness for C6 at concrete statuses (201 succeeds, 500 fails and is
retried, 500 on the last attempt yields overall failure). -/
theorem upload_status_c6_witness :
    post_firmware_to_server true (fun _ => .status 201) =
      (true, [.sockProbe, .healthGet, .att 1]) ∧
    (∃ t, (post_firmware_to_server true (fun _ => .status 500)).2 =
      [.sockProbe, .healthGet, .att 1, .att 2] ++ t) ∧
    (post_firmware_to_server true (fun _ => .status 500)).1 = false :=
  ⟨((upload_status_c6 _ 201).1 rfl).1 (Or.inr rfl),
   ((upload_status_c6 _ 500).1 rfl).2 (by decide),
   (upload_status_c6 (fun _ => .status 500) 500).2
     (Or.inr (Or.inr ⟨500, rfl, by decide, by decide⟩))
     (Or.inr (Or.inr ⟨500, rfl, by decide, by decide⟩)) rfl (by decide)⟩

/-! ## Claim C8 -/

theorem reSearchFV_eq_none_of_not_contains :
    ∀ cs : List Char, containsSeq litFV cs = false → reSearchFV cs = none := by
  intro cs
  induction cs with
  | nil => intro _; rfl
  | cons a t ih =>
    intro h
    rw [containsSeq, Bool.or_eq_false_iff] at h
    simp [reSearchFV, h.1, ih h.2]

theorem searchFlagsLoop_eq_findSome (flags : List String) :
    searchFlagsLoop flags = (flags.findSome? flagVersionMatch?).getD "0.0.0" := by
  induction flags with
  | nil => rfl
  | cons f rest ih =>
    by_cases hc : containsSeq litFV f.toList = true
    · rw [searchFlagsLoop, if_pos hc]
      cases hm : reSearchFV f.toList with
      | none =>
        have hm2 : reSearchFV f.data = none := hm
        simp [List.findSome?_cons, flagVersionMatch?, hm2, ih]
      | some v =>
        have hm2 : reSearchFV f.data = some v := hm
        simp [List.findSome?_cons, flagVersionMatch?, hm2, String.mk]
    · have hf : containsSeq litFV f.toList = false := by
        simpa using hc
      have hn2 : reSearchFV f.data = none :=
        reSearchFV_eq_none_of_not_contains _ hf
      rw [searchFlagsLoop,
        if_neg (by simp [show containsSeq litFV f.data = false from hf])]
      simp [List.findSome?_cons, flagVersionMatch?, hn2, ih]

/-- C8: `get_firmware_version` returns the `custom_firmware_version`
project option when it is set (non-empty); otherwise the value captured
by the `FIRMWARE_VERSION` digits-and-dots pattern in the first matching
build flag; otherwise `"0.0.0"` — stated as equality with the claim-side
resolution function. -/
theorem get_firmware_version_c8 (custom : Option String) (flags : List String) :
    get_firmware_version custom flags = get_firmware_version_claim custom flags := by
  cases custom with
  | none =>
    simpa [get_firmware_version, get_firmware_version_claim] using
      searchFlagsLoop_eq_findSome flags
  | some v =>
    by_cases hv : v = "" <;>
      simp [get_firmware_version, get_firmware_version_claim, hv,
        searchFlagsLoop_eq_findSome]

/-! ## Claim C5 -/

/-- C5 counterexample: with the project option set to one URL and the
`OTA_SERVER_URL` environment variable set to a different URL, every
network operation of the deployment (probe, health check, upload POST)
targets the project-configured URL, not the environment variable. -/
theorem deploy_url_c5_counterexample :
    deploy_firmware true none (some "ota") "http://project:8081/upload"
        "http://env:8081/upload" true (fun _ => .status 200) =
      [.mkdirFx, .copyFirmwareFx, .writeManifestFx,
       .net "http://project:8081/upload" .sockProbe,
       .net "http://project:8081/upload" .healthGet,
       .net "http://project:8081/upload" (.att 1)] ∧
    ("http://project:8081/upload" == "http://env:8081/upload") = false := by
  constructor
  · rfl
  · decide

/-- C5 amended: the project-configured `ota_server_url` takes precedence;
the environment variable `OTA_SERVER_URL` is only used when the project
option is unset or empty.  Every network effect of `deploy_firmware`
targets `resolveServerUrl projUrl envUrl`, which is `projUrl` when
non-empty and `envUrl` otherwise. -/
theorem deploy_url_c5_amended (flashEnv projFlash : Option String)
    (projUrl envUrl : String) (hasRequests : Bool) (outs : Nat → Outcome)
    (hota : resolveFlashMethod flashEnv projFlash = "ota") :
    ((deploy_firmware true flashEnv projFlash projUrl envUrl hasRequests outs).all
      (netTargets (resolveServerUrl projUrl envUrl))) = true ∧
    (projUrl ≠ "" → resolveServerUrl projUrl envUrl = projUrl) ∧
    (projUrl = "" → resolveServerUrl projUrl envUrl = envUrl) := by
  refine ⟨?_, fun h => by simp [resolveServerUrl, h], fun h => by simp [resolveServerUrl, h]⟩
  by_cases hu : resolveServerUrl projUrl envUrl = ""
  · simp [deploy_firmware, hota, hu, netTargets]
  · simp [deploy_firmware, hota, hu, netTargets, List.all_map, Function.comp]

/-- Witness for C5's amended claim at concrete configuration values. -/
theorem deploy_url_c5_amended_witness :
    resolveFlashMethod none (some "ota") = "ota" ∧
    ((deploy_firmware true none (some "ota") "http://project:8081/upload"
        "http://env:8081/upload" true (fun _ => .status 200)).all
      (netTargets (resolveServerUrl "http://project:8081/upload"
        "http://env:8081/upload"))) = true ∧
    resolveServerUrl "http://project:8081/upload" "http://env:8081/upload" =
      "http://project:8081/upload" ∧
    resolveServerUrl "" "http://env:8081/upload" = "http://env:8081/upload" :=
  ⟨rfl,
   (deploy_url_c5_amended none (some "ota") _ _ true _ rfl).1,
   (deploy_url_c5_amended none (some "ota") "http://project:8081/upload"
      "http://env:8081/upload" true (fun _ => .status 200) rfl).2.1 (by decide),
   (deploy_url_c5_amended none (some "ota") "" "http://env:8081/upload"
      true (fun _ => .status 200) rfl).2.2 rfl⟩

/-! ## Claim C7 -/

/-- C7: when the resolved flash method is not `"ota"` (including the
default `"serial"`), `deploy_firmware` performs no network operation at
all — its effects are exactly the staging-directory creation, the local
`firmware.bin` copy and the local `manifest.json` write. -/
theorem deploy_serial_c7 (flashEnv projFlash : Option String)
    (projUrl envUrl : String) (hasRequests : Bool) (outs : Nat → Outcome)
    (h : resolveFlashMethod flashEnv projFlash ≠ "ota") :
    deploy_firmware true flashEnv projFlash projUrl envUrl hasRequests outs =
      [.mkdirFx, .copyFirmwareFx, .writeManifestFx] := by
  simp [deploy_firmware, h]

/-- Witness for C7: the default configuration (no env override, no
project option) resolves to `"serial"` and stages locally only. -/
theorem deploy_serial_c7_witness :
    resolveFlashMethod none none ≠ "ota" ∧
    deploy_firmware true none none "http://x" "" true (fun _ => .status 200) =
      [.mkdirFx, .copyFirmwareFx, .writeManifestFx] :=
  ⟨by decide, deploy_serial_c7 none none "http://x" "" true _ (by decide)⟩

/-! ## Claim C10 -/

/-- C10: when the built firmware binary does not exist,
`deploy_firmware` returns normally after logging — no staging copy, no
manifest write, and no network activity. -/
theorem deploy_missing_c10 (flashEnv projFlash : Option String)
    (projUrl envUrl : String) (hasRequests : Bool) (outs : Nat → Outcome) :
    deploy_firmware false flashEnv projFlash projUrl envUrl hasRequests outs =
      [.logNotFound] := by
  simp [deploy_firmware]

/-! ## Claim C1 -/

/-- C1 (code bug): for the multipart upload whose `firmware` part payload
is the four bytes `abc-`, the server's `rstrip(b"\r\n--")` also strips
the payload's own trailing `-`, so the 200 response and the written
manifest carry `size = 3` and an MD5 computed over `abc` — not the
length (4) and MD5 of the exact bytes the client sent.  The claim (and
spec §8.1) require `size = len(firmware_bytes)` and the MD5 of the exact
received bytes, for contents with trailing `-`/CR/LF included. -/
theorem server_md5_c1_bug (md5Fn : List Nat → String) (now : String) (st : ServerState) :
    dashFirmware.length = 4 ∧
    (do_POST md5Fn now (strBytes "X") dashBody st).1 =
      (200, .obj [("status", .str "ok"), ("md5", .str (md5Fn (strBytes "abc"))),
        ("size", .num 3)]) ∧
    (do_POST md5Fn now (strBytes "X") dashBody st).2.firmwareFile =
      some (strBytes "abc") ∧
    (do_POST md5Fn now (strBytes "X") dashBody st).2.manifestFile =
      some { version := "0.0.0", file := "firmware.bin",
             md5 := md5Fn (strBytes "abc"), size := 3,
             board := "unknown", timestamp := now } ∧
    (strBytes "abc" == dashFirmware) = false :=
  ⟨rfl, rfl, rfl, rfl, by decide⟩

/-! ## Claim C4 -/

/-- C4 counterexample: a multipart body that contains no `firmware` part
(only a `version` part whose payload is the non-UTF-8 byte `0xff`) is
answered with 500 — the `bytes.decode()` in the part-scanning loop
raises before the `no firmware` check — not with the claimed 400
`{"error":"no firmware"}`.  No file is written either way. -/
theorem server_no_firmware_c4_counterexample :
    ((splitSeq (strBytes "--" ++ strBytes "X") badVersionBody).all
      (fun p => !(containsSeq nameFirmwareTag p))) = true ∧
    (do_POST (fun _ => "") "" (strBytes "X") badVersionBody ⟨none, none⟩).1 =
      (500, .obj [("error", .str "unicode decode error")]) ∧
    ((do_POST (fun _ => "") "" (strBytes "X") badVersionBody ⟨none, none⟩).1.1 == 400)
      = false ∧
    (do_POST (fun _ => "") "" (strBytes "X") badVersionBody ⟨none, none⟩).2 =
      ⟨none, none⟩ :=
  ⟨rfl, rfl, by decide, rfl⟩

/-- C4 amended: when scanning the parts raises no `UnicodeDecodeError`
(in particular whenever any `version`/`board` payloads are valid UTF-8),
a body with no `firmware` part or an empty extracted firmware payload is
answered 400 `{"error":"no firmware"}` with the staging directory left
untouched; when the scan raises a decode error the response is 500, the
staging directory again untouched. -/
theorem server_no_firmware_c4_amended (md5Fn : List Nat → String) (now : String)
    (boundary body : List Nat) (st : ServerState) :
    (∀ fd, scanParts (splitSeq (strBytes "--" ++ boundary) body) ⟨none, none, none⟩ = .ok fd →
      fd.firmware_data = none ∨ fd.firmware_data = some [] →
      do_POST md5Fn now boundary body st =
        ((400, .obj [("error", .str "no firmware")]), st)) ∧
    (∀ e, scanParts (splitSeq (strBytes "--" ++ boundary) body) ⟨none, none, none⟩ = .error e →
      do_POST md5Fn now boundary body st =
        ((500, .obj [("error", .str "unicode decode error")]), st)) := by
  constructor
  · intro fd hscan hfw
    simp only [do_POST]
    rw [hscan]
    rcases hfw with h | h <;> simp [h]
  · intro e hscan
    simp only [do_POST]
    rw [hscan]

/-- Witness for C4's amended claim: a body with a `version` part and no
`firmware` part is answered 400 and leaves previously staged files
byte-for-byte unchanged; a body whose `version` payload is not UTF-8 is
answered 500, also without touching the staged files. -/
theorem server_no_firmware_c4_amended_witness :
    (do_POST (fun _ => "") "" (strBytes "X") noFirmwareBody
        ⟨some (strBytes "old"), some ⟨"0.9", "firmware.bin", "m", 3, "b", "t"⟩⟩ =
      ((400, .obj [("error", .str "no firmware")]),
        ⟨some (strBytes "old"), some ⟨"0.9", "firmware.bin", "m", 3, "b", "t"⟩⟩)) ∧
    (do_POST (fun _ => "") "" (strBytes "X") badVersionBody
        ⟨some (strBytes "old"), some ⟨"0.9", "firmware.bin", "m", 3, "b", "t"⟩⟩ =
      ((500, .obj [("error", .str "unicode decode error")]),
        ⟨some (strBytes "old"), some ⟨"0.9", "firmware.bin", "m", 3, "b", "t"⟩⟩)) :=
  ⟨(server_no_firmware_c4_amended (fun _ => "") "" (strBytes "X") noFirmwareBody
      ⟨some (strBytes "old"), some ⟨"0.9", "firmware.bin", "m", 3, "b", "t"⟩⟩).1
    ⟨none, some "1.0", none⟩ rfl (Or.inl rfl),
   (server_no_firmware_c4_amended (fun _ => "") "" (strBytes "X") badVersionBody
      ⟨some (strBytes "old"), some ⟨"0.9", "firmware.bin", "m", 3, "b", "t"⟩⟩).2
    () rfl⟩

/-! ## Claim C9: JSON round-trip lemmas -/

theorem hexVal?_hexDig (d : Nat) (hd : d < 16) : hexVal? (hexDig d) = some d := by
  interval_cases d <;> decide

theorem hex4Val?_hex4 (v : Nat) (hv : v < 0x10000) :
    hex4Val? (hexDig (v / 4096 % 16)) (hexDig (v / 256 % 16))
      (hexDig (v / 16 % 16)) (hexDig (v % 16)) = some v := by
  have h1 := hexVal?_hexDig (v / 4096 % 16) (by omega)
  have h2 := hexVal?_hexDig (v / 256 % 16) (by omega)
  have h3 := hexVal?_hexDig (v / 16 % 16) (by omega)
  have h4 := hexVal?_hexDig (v % 16) (by omega)
  simp [hex4Val?, h1, h2, h3, h4]
  omega

theorem char_toNat_valid (c : Char) :
    c.toNat < 0x110000 ∧ (c.toNat < 0xd800 ∨ 0xdfff < c.toNat) := by
  have h : Nat.isValidChar c.toNat := c.valid
  rcases h with h | ⟨h1, h2⟩
  · exact ⟨by omega, Or.inl h⟩
  · exact ⟨h2, Or.inr h1⟩

theorem parseStrF_quote (n : Nat) (X : List Char) :
    parseStrF (n + 1) ('\"' :: X) = some ([], X) := by
  simp [parseStrF]

theorem parseStrF_plain (n : Nat) (c : Char) (X : List Char) (s r : List Char)
    (hq : c ≠ '\"') (hb : c ≠ '\\') (h : parseStrF n X = some (s, r)) :
    parseStrF (n + 1) (c :: X) = some (c :: s, r) := by
  simp [parseStrF, hq, hb, h]

theorem parseStrF_esc (n : Nat) (X X2 : List Char) (ec : Char) (s r : List Char)
    (hu : unescapeHead X = some (ec, X2)) (h : parseStrF n X2 = some (s, r)) :
    parseStrF (n + 1) ('\\' :: X) = some (ec :: s, r) := by
  simp [parseStrF, hu, h]

theorem unescapeHead_u (v : Nat) (hv : v < 0x10000) (hok : v < 0xd800 ∨ 0xdfff < v)
    (X : List Char) :
    unescapeHead ('u' :: (hex4 v ++ X)) = some (Char.ofNat v, X) := by
  have e1 : unescapeHead ('u' :: (hex4 v ++ X)) =
      uEscapeCont (hex4Val? (hexDig (v / 4096 % 16)) (hexDig (v / 256 % 16))
        (hexDig (v / 16 % 16)) (hexDig (v % 16))) X := rfl
  rw [e1, hex4Val?_hex4 v hv]
  show (if 0xd800 ≤ v ∧ v ≤ 0xdbff then uSurrogateTail v X
    else if 0xdc00 ≤ v ∧ v ≤ 0xdfff then none
    else some (Char.ofNat v, X)) = some (Char.ofNat v, X)
  rw [if_neg (by omega), if_neg (by omega)]

theorem unescapeHead_pair_gen (hi lo : Nat) (h1 : 0xd800 ≤ hi) (h2 : hi ≤ 0xdbff)
    (h3 : 0xdc00 ≤ lo) (h4 : lo ≤ 0xdfff) (X : List Char) :
    unescapeHead ('u' :: (hex4 hi ++ ('\\' :: 'u' :: (hex4 lo ++ X)))) =
      some (Char.ofNat (0x10000 + (hi - 0xd800) * 0x400 + (lo - 0xdc00)), X) := by
  have hhi : hi < 0x10000 := by omega
  have hlo : lo < 0x10000 := by omega
  have e1 : unescapeHead ('u' :: (hex4 hi ++ ('\\' :: 'u' :: (hex4 lo ++ X)))) =
      uEscapeCont (hex4Val? (hexDig (hi / 4096 % 16)) (hexDig (hi / 256 % 16))
        (hexDig (hi / 16 % 16)) (hexDig (hi % 16)))
        ('\\' :: 'u' :: (hex4 lo ++ X)) := rfl
  rw [e1, hex4Val?_hex4 _ hhi]
  show (if 0xd800 ≤ hi ∧ hi ≤ 0xdbff then
      uSurrogateTail hi ('\\' :: 'u' :: (hex4 lo ++ X))
    else if 0xdc00 ≤ hi ∧ hi ≤ 0xdfff then none
    else some (Char.ofNat hi, '\\' :: 'u' :: (hex4 lo ++ X))) =
    some (Char.ofNat (0x10000 + (hi - 0xd800) * 0x400 + (lo - 0xdc00)), X)
  rw [if_pos ⟨h1, h2⟩]
  show uPairCont hi (hex4Val? (hexDig (lo / 4096 % 16)) (hexDig (lo / 256 % 16))
      (hexDig (lo / 16 % 16)) (hexDig (lo % 16))) X =
    some (Char.ofNat (0x10000 + (hi - 0xd800) * 0x400 + (lo - 0xdc00)), X)
  rw [hex4Val?_hex4 _ hlo]
  show (if 0xdc00 ≤ lo ∧ lo ≤ 0xdfff then
      some (Char.ofNat (0x10000 + (hi - 0xd800) * 0x400 + (lo - 0xdc00)), X)
    else none) = some (Char.ofNat (0x10000 + (hi - 0xd800) * 0x400 + (lo - 0xdc00)), X)
  rw [if_pos ⟨h3, h4⟩]

theorem one_le_length_escapeChar (c : Char) : 1 ≤ (escapeChar c).length := by
  unfold escapeChar
  split_ifs <;> simp [hex4]

theorem length_le_length_escapeList (s : List Char) :
    s.length ≤ (escapeList s).length := by
  induction s with
  | nil => simp [escapeList]
  | cons c t ih =>
    have := one_le_length_escapeChar c
    simp only [escapeList, List.length_append, List.length_cons]
    omega

theorem parseStrF_escapeList (s : List Char) : ∀ (tail : List Char) (f : Nat),
    parseStrF (s.length + f + 1) (escapeList s ++ '\"' :: tail) = some (s, tail) := by
  induction s with
  | nil =>
    intro tail f
    simp only [List.length_nil, Nat.zero_add, escapeList, List.nil_append]
    exact parseStrF_quote f tail
  | cons c t ih =>
    intro tail f
    have hlen : (c :: t).length + f + 1 = (t.length + f + 1) + 1 := by
      simp [List.length_cons]; omega
    rw [hlen]
    have hIH := ih tail f
    rw [show escapeList (c :: t) = escapeChar c ++ escapeList t from rfl,
      List.append_assoc]
    by_cases h1 : c = '\"'
    · subst h1
      rw [show escapeChar '\"' = ['\\', '\"'] from rfl]
      exact parseStrF_esc _ _ _ _ _ _ rfl hIH
    · by_cases h2 : c = '\\'
      · subst h2
        rw [show escapeChar '\\' = ['\\', '\\'] from rfl]
        exact parseStrF_esc _ _ _ _ _ _ rfl hIH
      · by_cases h3 : c = Char.ofNat 8
        · subst h3
          rw [show escapeChar (Char.ofNat 8) = ['\\', 'b'] from rfl]
          exact parseStrF_esc _ _ _ _ _ _ rfl hIH
        · by_cases h4 : c = Char.ofNat 12
          · subst h4
            rw [show escapeChar (Char.ofNat 12) = ['\\', 'f'] from rfl]
            exact parseStrF_esc _ _ _ _ _ _ rfl hIH
          · by_cases h5 : c = '\n'
            · subst h5
              rw [show escapeChar '\n' = ['\\', 'n'] from rfl]
              exact parseStrF_esc _ _ _ _ _ _ rfl hIH
            · by_cases h6 : c = '\r'
              · subst h6
                rw [show escapeChar '\r' = ['\\', 'r'] from rfl]
                exact parseStrF_esc _ _ _ _ _ _ rfl hIH
              · by_cases h7 : c = '\t'
                · subst h7
                  rw [show escapeChar '\t' = ['\\', 't'] from rfl]
                  exact parseStrF_esc _ _ _ _ _ _ rfl hIH
                · by_cases h8 : 0x20 ≤ c.toNat ∧ c.toNat ≤ 0x7e
                  · have he : escapeChar c = [c] := by
                      simp [escapeChar, h1, h2, h3, h4, h5, h6, h7, h8]
                    rw [he]
                    exact parseStrF_plain _ _ _ _ _ h1 h2 hIH
                  · by_cases h9 : c.toNat < 0x10000
                    · have he : escapeChar c = '\\' :: 'u' :: hex4 c.toNat := by
                        simp [escapeChar, h1, h2, h3, h4, h5, h6, h7, h8, h9]
                      rw [he]
                      rw [show ('\\' :: 'u' :: hex4 c.toNat) ++
                          (escapeList t ++ '\"' :: tail) =
                          '\\' :: ('u' :: (hex4 c.toNat ++
                            (escapeList t ++ '\"' :: tail))) from by simp]
                      have hu := unescapeHead_u c.toNat h9 (char_toNat_valid c).2
                        (escapeList t ++ '\"' :: tail)
                      have hres := parseStrF_esc (t.length + f + 1) _ _ _ _ _ hu hIH
                      rw [Char.ofNat_toNat] at hres
                      exact hres
                    · have hlt := (char_toNat_valid c).1
                      have he : escapeChar c =
                          ('\\' :: 'u' :: hex4 (0xd800 + (c.toNat - 0x10000) / 0x400)) ++
                          ('\\' :: 'u' :: hex4 (0xdc00 + (c.toNat - 0x10000) % 0x400)) := by
                        simp [escapeChar, h1, h2, h3, h4, h5, h6, h7, h8, h9]
                      rw [he]
                      rw [show (('\\' :: 'u' :: hex4 (0xd800 + (c.toNat - 0x10000) / 0x400)) ++
                          ('\\' :: 'u' :: hex4 (0xdc00 + (c.toNat - 0x10000) % 0x400))) ++
                          (escapeList t ++ '\"' :: tail) =
                          '\\' :: ('u' :: (hex4 (0xd800 + (c.toNat - 0x10000) / 0x400) ++
                            ('\\' :: 'u' :: (hex4 (0xdc00 + (c.toNat - 0x10000) % 0x400) ++
                              (escapeList t ++ '\"' :: tail))))) from by simp]
                      have hu := unescapeHead_pair_gen
                        (0xd800 + (c.toNat - 0x10000) / 0x400)
                        (0xdc00 + (c.toNat - 0x10000) % 0x400)
                        (by omega) (by omega) (by omega) (by omega)
                        (escapeList t ++ '\"' :: tail)
                      have harith : 0x10000 +
                          (0xd800 + (c.toNat - 0x10000) / 0x400 - 0xd800) * 0x400 +
                          (0xdc00 + (c.toNat - 0x10000) % 0x400 - 0xdc00) = c.toNat := by
                        omega
                      rw [harith, Char.ofNat_toNat] at hu
                      exact parseStrF_esc (t.length + f + 1) _ _ _ _ _ hu hIH

theorem parseStrF_mono : ∀ (f g : Nat), f ≤ g → ∀ (cs : List Char)
    (r : List Char × List Char), parseStrF f cs = some r → parseStrF g cs = some r := by
  intro f
  induction f with
  | zero => intro g _ cs r h; simp [parseStrF] at h
  | succ f ih =>
    intro g hfg cs r h
    obtain ⟨g2, rfl⟩ : ∃ g2, g = g2 + 1 := ⟨g - 1, by omega⟩
    cases cs with
    | nil => simp [parseStrF] at h
    | cons c rest =>
      simp only [parseStrF] at h ⊢
      by_cases hq : c = '\"'
      · subst hq
        rw [if_pos rfl] at h ⊢
        exact h
      · by_cases hb : c = '\\'
        · subst hb
          rw [if_neg hq, if_pos rfl] at h ⊢
          cases hu : unescapeHead rest with
          | none => rw [hu] at h; simp at h
          | some er =>
            rw [hu] at h
            cases hp : parseStrF f er.2 with
            | none => simp [hp] at h
            | some p =>
              simp only [hp] at h
              simp only [ih g2 (by omega) er.2 p hp]
              simpa using h
        · rw [if_neg hq, if_neg hb] at h ⊢
          cases hp : parseStrF f rest with
          | none => simp [hp] at h
          | some p =>
            rw [ih g2 (by omega) rest p hp]
            rw [hp] at h
            simpa using h

theorem parseStr_escapeList (s tail : List Char) :
    parseStr (escapeList s ++ '\"' :: tail) = some (s, tail) := by
  unfold parseStr
  refine parseStrF_mono (s.length + 0 + 1) _ ?_ _ _ (parseStrF_escapeList s tail 0)
  have := length_le_length_escapeList s
  simp [List.length_append]
  omega

theorem natDigits_eq (n : Nat) : natDigits n =
    if n < 10 then [hexDig n] else natDigits (n / 10) ++ [hexDig (n % 10)] := by
  rw [natDigits]

theorem hexDig_digit_props (n : Nat) (h : n < 10) :
    (hexDig n).isDigit = true ∧ (hexDig n).toNat - 48 = n ∧
      hexDig n ≠ '\"' ∧ jsonWs (hexDig n) = false := by
  interval_cases n <;> decide

theorem parseNumAux_natDigits (n : Nat) : ∀ (acc : Nat) (rest : List Char),
    parseNumAux acc (natDigits n ++ rest) =
      parseNumAux (acc * 10 ^ (natDigits n).length + n) rest := by
  induction n using Nat.strong_induction_on with
  | _ n ih =>
    intro acc rest
    by_cases hn : n < 10
    · rw [natDigits_eq n, if_pos hn]
      obtain ⟨hd, hv, _, _⟩ := hexDig_digit_props n hn
      simp only [List.cons_append, List.nil_append, parseNumAux, hd, if_true, hv]
      congr 1
      simp
      omega
    · rw [natDigits_eq n, if_neg hn, List.append_assoc, List.cons_append,
        List.nil_append]
      rw [ih (n / 10) (by omega) acc (hexDig (n % 10) :: rest)]
      obtain ⟨hd, hv, _, _⟩ := hexDig_digit_props (n % 10) (by omega)
      simp only [parseNumAux, hd, if_true, hv]
      congr 1
      simp only [List.length_append, List.length_cons, List.length_nil]
      rw [pow_succ]
      have h2 : 10 * (acc * 10 ^ (natDigits (n / 10)).length + n / 10) + n % 10 =
          acc * (10 ^ (natDigits (n / 10)).length * 10) + (10 * (n / 10) + n % 10) := by
        ring
      rw [h2]
      congr 1
      omega

theorem natDigits_head (n : Nat) : ∃ c t, natDigits n = c :: t ∧
    c.isDigit = true ∧ c ≠ '\"' ∧ jsonWs c = false := by
  induction n using Nat.strong_induction_on with
  | _ n ih =>
    by_cases hn : n < 10
    · obtain ⟨hd, _, hq, hw⟩ := hexDig_digit_props n hn
      exact ⟨hexDig n, [], by rw [natDigits_eq n, if_pos hn], hd, hq, hw⟩
    · obtain ⟨c, t, he, hd, hq, hw⟩ := ih (n / 10) (by omega)
      exact ⟨c, t ++ [hexDig (n % 10)],
        by rw [natDigits_eq n, if_neg hn, he]; simp, hd, hq, hw⟩

theorem parseNum_natDigits (n : Nat) (rest : List Char)
    (hrest : ∀ c cs, rest = c :: cs → c.isDigit = false) :
    parseNum (natDigits n ++ rest) = some (n, rest) := by
  obtain ⟨c, t, he, hd, _, _⟩ := natDigits_head n
  rw [he, List.cons_append]
  simp only [parseNum, hd, if_true]
  rw [← List.cons_append, ← he, parseNumAux_natDigits]
  simp only [Nat.zero_mul, Nat.zero_add]
  cases rest with
  | nil => simp [parseNumAux]
  | cons c2 cs => simp [parseNumAux, hrest c2 cs rfl]

theorem skipWs_natDigits (n : Nat) (X : List Char) :
    skipWs (natDigits n ++ X) = natDigits n ++ X := by
  obtain ⟨c, t, he, _, _, hw⟩ := natDigits_head n
  rw [he, List.cons_append]
  simp [skipWs, hw]

theorem parseVal_sp (X : List Char) : parseVal (' ' :: X) = parseVal X := by
  simp [parseVal, skipWs, jsonWs]

theorem parseVal_str (vcs rest : List Char) :
    parseVal ('\"' :: (escapeList vcs ++ '\"' :: rest)) =
      some (Json.str (String.mk vcs), rest) := by
  have hv := parseStr_escapeList vcs rest
  simp [parseVal, skipWs, jsonWs, hv]

theorem parseVal_natDigits (n : Nat) (rest : List Char)
    (hrest : ∀ c cs, rest = c :: cs → c.isDigit = false) :
    parseVal (natDigits n ++ rest) = some (Json.num n, rest) := by
  obtain ⟨c, t, he, hd, hq, hw⟩ := natDigits_head n
  have hnum := parseNum_natDigits n rest hrest
  rw [he] at hnum ⊢
  rw [List.cons_append] at hnum ⊢
  simp [parseVal, skipWs, hw, hq, hd, hnum]

theorem parseMembersF_member_str (f : Nat) (kcs vcs rest : List Char)
    (ms : List (String × Json)) (r6 : List Char)
    (hrec : parseMembersF f rest = some (ms, r6)) :
    parseMembersF (f + 1)
      ('\n' :: ' ' :: ' ' :: '\"' :: (escapeList kcs ++
        '\"' :: ':' :: ' ' :: '\"' :: (escapeList vcs ++ '\"' :: ',' :: rest))) =
      some ((String.mk kcs, Json.str (String.mk vcs)) :: ms, r6) := by
  have hk := parseStr_escapeList kcs
    (':' :: ' ' :: '\"' :: (escapeList vcs ++ '\"' :: ',' :: rest))
  have hval := parseVal_str vcs (',' :: rest)
  simp only [parseMembersF]
  rw [show skipWs ('\n' :: ' ' :: ' ' :: '\"' :: (escapeList kcs ++
      '\"' :: ':' :: ' ' :: '\"' :: (escapeList vcs ++ '\"' :: ',' :: rest))) =
    '\"' :: (escapeList kcs ++
      '\"' :: ':' :: ' ' :: '\"' :: (escapeList vcs ++ '\"' :: ',' :: rest)) from rfl]
  simp [hk, hval, hrec, parseVal_sp, skipWs, jsonWs]

theorem parseMembersF_member_num (f : Nat) (kcs rest : List Char) (n : Nat)
    (ms : List (String × Json)) (r6 : List Char)
    (hrec : parseMembersF f rest = some (ms, r6)) :
    parseMembersF (f + 1)
      ('\n' :: ' ' :: ' ' :: '\"' :: (escapeList kcs ++
        '\"' :: ':' :: ' ' :: (natDigits n ++ ',' :: rest))) =
      some ((String.mk kcs, Json.num n) :: ms, r6) := by
  have hk := parseStr_escapeList kcs (':' :: ' ' :: (natDigits n ++ ',' :: rest))
  have hval := parseVal_natDigits n (',' :: rest)
    (by intro c cs h; cases h; decide)
  simp only [parseMembersF]
  rw [show skipWs ('\n' :: ' ' :: ' ' :: '\"' :: (escapeList kcs ++
      '\"' :: ':' :: ' ' :: (natDigits n ++ ',' :: rest))) =
    '\"' :: (escapeList kcs ++
      '\"' :: ':' :: ' ' :: (natDigits n ++ ',' :: rest)) from rfl]
  simp [hk, hval, hrec, parseVal_sp, skipWs, jsonWs]

theorem parseMembersF_member_last (f : Nat) (kcs vcs : List Char) :
    parseMembersF (f + 1)
      ('\n' :: ' ' :: ' ' :: '\"' :: (escapeList kcs ++
        '\"' :: ':' :: ' ' :: '\"' :: (escapeList vcs ++ '\"' :: '\n' :: rbraceC :: []))) =
      some ([(String.mk kcs, Json.str (String.mk vcs))], []) := by
  have hk := parseStr_escapeList kcs
    (':' :: ' ' :: '\"' :: (escapeList vcs ++ '\"' :: '\n' :: rbraceC :: []))
  have hval := parseVal_str vcs ('\n' :: rbraceC :: [])
  simp only [parseMembersF]
  rw [show skipWs ('\n' :: ' ' :: ' ' :: '\"' :: (escapeList kcs ++
      '\"' :: ':' :: ' ' :: '\"' :: (escapeList vcs ++ '\"' :: '\n' :: rbraceC :: []))) =
    '\"' :: (escapeList kcs ++
      '\"' :: ':' :: ' ' :: '\"' :: (escapeList vcs ++ '\"' :: '\n' :: rbraceC :: []))
    from rfl]
  have hrb : ¬(rbraceC = ',') := by decide
  have hdw : List.dropWhile jsonWs [rbraceC] = [rbraceC] := by decide
  simp [hk, hval, parseVal_sp, skipWs, jsonWs, hrb, hdw]

theorem parseObj_of_parseMembersF (t : List Char) (ms : List (String × Json))
    (h : parseMembersF (t.length + 6) ('\n' :: ' ' :: ' ' :: '\"' :: t) = some (ms, [])) :
    parseObj (lbraceC :: '\n' :: ' ' :: ' ' :: '\"' :: t) = some ms := by
  have h1 : skipWs (lbraceC :: '\n' :: ' ' :: ' ' :: '\"' :: t) =
      lbraceC :: '\n' :: ' ' :: ' ' :: '\"' :: t := rfl
  have h2 : skipWs ('\n' :: ' ' :: ' ' :: '\"' :: t) = '\"' :: t := rfl
  have h3 : skipWs ([] : List Char) = [] := rfl
  have hq : ¬('\"' = rbraceC) := by decide
  have h6 : parseMembersF (t.length + 1 + 1 + 1 + 1 + 1 + 1)
      ('\n' :: ' ' :: ' ' :: '\"' :: t) = some (ms, []) := by
    rw [show t.length + 1 + 1 + 1 + 1 + 1 + 1 = t.length + 6 from by omega]
    exact h
  simp [parseObj, h1, h2, h3, hq, h6]

theorem strMk_toList (s : String) : String.mk s.toList = s := rfl

theorem dumps_parseObj (m : CManifest) :
    parseObj (dumpsManifest m) = some
      [(String.mk "version".toList, Json.str (String.mk m.version.toList)),
       (String.mk "file".toList, Json.str (String.mk m.file.toList)),
       (String.mk "md5".toList, Json.str (String.mk m.md5.toList)),
       (String.mk "size".toList, Json.num m.size),
       (String.mk "board".toList, Json.str (String.mk m.board.toList)),
       (String.mk "timestamp".toList, Json.str (String.mk m.timestamp.toList))] := by
  have hsplit : dumpsManifest m = lbraceC :: '\n' :: ' ' :: ' ' :: '\"' ::
      (escapeList "version".toList ++ '\"' :: ':' :: ' ' :: '\"' ::
        (escapeList m.version.toList ++ '\"' :: ',' ::
      '\n' :: ' ' :: ' ' :: '\"' ::
      (escapeList "file".toList ++ '\"' :: ':' :: ' ' :: '\"' ::
        (escapeList m.file.toList ++ '\"' :: ',' ::
      '\n' :: ' ' :: ' ' :: '\"' ::
      (escapeList "md5".toList ++ '\"' :: ':' :: ' ' :: '\"' ::
        (escapeList m.md5.toList ++ '\"' :: ',' ::
      '\n' :: ' ' :: ' ' :: '\"' ::
      (escapeList "size".toList ++ '\"' :: ':' :: ' ' ::
        (natDigits m.size ++ ',' ::
      '\n' :: ' ' :: ' ' :: '\"' ::
      (escapeList "board".toList ++ '\"' :: ':' :: ' ' :: '\"' ::
        (escapeList m.board.toList ++ '\"' :: ',' ::
      '\n' :: ' ' :: ' ' :: '\"' ::
      (escapeList "timestamp".toList ++ '\"' :: ':' :: ' ' :: '\"' ::
        (escapeList m.timestamp.toList ++ '\"' :: '\n' :: rbraceC :: [])))))))))))) := by
    simp [dumpsManifest, keyPre, strLit, commaNl, List.append_assoc]
  rw [hsplit]
  apply parseObj_of_parseMembersF
  exact parseMembersF_member_str _ _ _ _ _ _
    (parseMembersF_member_str _ _ _ _ _ _
      (parseMembersF_member_str _ _ _ _ _ _
        (parseMembersF_member_num _ _ _ _ _ _
          (parseMembersF_member_str _ _ _ _ _ _
            (parseMembersF_member_last _ _ _)))))

/-- C9: for every manifest staged by `deploy_firmware`, parsing the
written `manifest.json` text (`json.dumps(manifest, indent=2)`) back as
JSON reproduces the staged `version`, `md5`, `size` and `board` values
exactly — serialization followed by parsing is the identity on these
fields, for all field contents (quotes, backslashes, control characters
and non-ASCII included). -/
theorem manifest_roundtrip_c9 (m : CManifest) :
    ((parseObj (dumpsManifest m)).bind (List.lookup "version") =
      some (Json.str m.version)) ∧
    ((parseObj (dumpsManifest m)).bind (List.lookup "md5") =
      some (Json.str m.md5)) ∧
    ((parseObj (dumpsManifest m)).bind (List.lookup "size") =
      some (Json.num m.size)) ∧
    ((parseObj (dumpsManifest m)).bind (List.lookup "board") =
      some (Json.str m.board)) := by
  rw [dumps_parseObj m]
  refine ⟨rfl, rfl, rfl, rfl⟩

end Ota
